import Mathlib

/-!
Verification of the voiceover-generation pipeline of this repository:
the paragraph chunker (`splitScriptByParagraphs` in `App.tsx`), the
capability-aware synthesis request shaping (`getModelCapabilities` and
`generateVoiceover` in `services/elevenLabsService.ts`), the resilient
transport (`fetchWithRetry`), the continuity-aware sequencer loop
(`handleGenerate`) and the batch orchestrator (`handleStartProcessing`).
Strings are embedded as `List Char`, JavaScript numbers as `ℚ` (no
floating-point arithmetic is performed by the modelled code paths:
values are only copied, compared and multiplied by 1.5 on small
magnitudes), and the remote transport as an explicit outcome function.
-/

namespace VoPipeline

/-! The Synthesis Client (`services/elevenLabsService.ts`): model-capability
classification and the shaping of the outgoing request body performed by
`generateVoiceover`.  JavaScript numbers are embedded as `ℚ`; the modelled
code only copies them and injects the constant `1.0`. -/

/-! The Resilient Transport (`fetchWithRetry` in `elevenLabsService.ts`).
The remote side is modelled as a function from the attempt number to an
outcome (an HTTP response or a network-level failure), and the random
jitter as a function from the attempt number to a rational; the function
returns the outcome of the loop together with the list of sleep durations
it performed, in order. -/

/-! The Continuity-Aware Sequencer: the chunk loop of `handleGenerate` in
`App.tsx`.  Each iteration first publishes the progress event
`{current: i + 1, total}`, then calls `generateVoiceover` with the chunk
and the previous call's returned request id, and stores that call's
request id for the next iteration.  The synthesis stub is modelled as a
function from the call number to the returned continuity token; the run
records the progress events and, per call, the chunk text and the
previous-token argument passed. -/

/-! The Batch Orchestrator: the `handleStartProcessing` loop of the batch
processor component (with the same control flow as `startProcessing` in
`BatchQueue.tsx`).  Jobs are drained strictly in queue order; each job is
chunked with the shared chunker and its chunks synthesised sequentially;
a success stores the combined artifact on the job, a failure is caught
per job — the job gets `status: 'error'` with the failure's message and
`progress: null`, and the loop moves on.  The locally collected chunk
blobs are not part of the job record on either path.  Storage upload and
history insertion are external collaborators modelled as succeeding; the
artifact reference is modelled by the combined blob itself.  Synthesis is
modelled per job as a function from the chunk number to either a blob
(`List Nat` of bytes) or a thrown error message. -/

/-- Convert a string literal to the `List Char` representation used throughout. -/
def chars (s : String) : List Char := s.toList

/-- Whitespace set recognised by JavaScript `String.prototype.trim` (the
subset relevant to this code base: space, tab, newline, carriage return,
vertical tab, form feed). -/
def isJsWhitespace (c : Char) : Bool :=
  c = ' ' || c = '\t' || c = '\n' || c = '\r' || c = '\x0b' || c = '\x0c'

/-- JavaScript `s.trim()`: drop leading and trailing whitespace. -/
def jsTrim (s : List Char) : List Char :=
  ((s.dropWhile (fun c => isJsWhitespace c)).reverse.dropWhile
    (fun c => isJsWhitespace c)).reverse

/-- Prepend a character to the first piece of a split result (used by the
split functions below to build pieces left to right). -/
def consHead (c : Char) : List (List Char) → List (List Char)
  | [] => [[c]]
  | p :: ps => (c :: p) :: ps

/-- One-pass implementation of JavaScript `text.split(/\n+/)` (split on
maximal runs of newline characters).  The flag records whether the scan is
currently inside a newline run, so that consecutive newlines are absorbed
into one separator.  A leading or trailing run produces an empty piece,
exactly as in JavaScript. -/
def splitNewlineRunsGo : Bool → List Char → List (List Char)
  | _, [] => [[]]
  | inRun, c :: rest =>
    if c = '\n' then
      if inRun then splitNewlineRunsGo true rest
      else [] :: splitNewlineRunsGo true rest
    else consHead c (splitNewlineRunsGo false rest)

/-- JavaScript `text.split(/\n+/)`. -/
def splitNewlineRuns (s : List Char) : List (List Char) :=
  splitNewlineRunsGo false s

/-- JavaScript `chunk.split("\n\n")`: split on occurrences of the exact
two-newline separator, leftmost first, non-overlapping. -/
def splitOnNN : List Char → List (List Char)
  | [] => [[]]
  | [c] => [[c]]
  | c1 :: c2 :: rest =>
    if c1 = '\n' ∧ c2 = '\n' then [] :: splitOnNN rest
    else consHead c1 (splitOnNN (c2 :: rest))

/-- JavaScript `pieces.join("\n\n")`. -/
def joinNN : List (List Char) → List Char
  | [] => []
  | [p] => p
  | p :: q :: rest => p ++ '\n' :: '\n' :: joinNN (q :: rest)

/-- Fixed-size windows, fuel-driven so that the recursion is structural:
the slices `paragraphs.slice(i, i + k)` for `i = 0, k, 2k, ...` taken by
the chunking loop in `splitScriptByParagraphs`.  The fuel is always
instantiated with the list length, which bounds the number of loop
iterations whenever `k ≥ 1` (the caller's guard ensures `k ≥ 1`). -/
def chunkWindowsGo (k : Nat) : Nat → List α → List (List α)
  | 0, _ => []
  | _ + 1, [] => []
  | fuel + 1, x :: xs => (x :: xs.take (k - 1)) :: chunkWindowsGo k fuel (xs.drop (k - 1))

/-- The grouping loop `for (let i = 0; i < paragraphs.length; i += k)`
with `chunks.push(paragraphs.slice(i, i + k))`. -/
def chunkWindows (k : Nat) (l : List α) : List (List α) :=
  chunkWindowsGo k l.length l

/-- The chunker `splitScriptByParagraphs(text, paragraphsPerChunk)` of
`App.tsx` (identical copies live in `BatchQueue.tsx` and the batch
processor): guard against blank input and non-positive counts, split on
newline runs, drop whitespace-only paragraphs, group into fixed windows
and re-join each window with a blank line. -/
def splitScriptByParagraphs (text : List Char) (paragraphsPerChunk : Int) :
    List (List Char) :=
  if jsTrim text = [] ∨ paragraphsPerChunk ≤ 0 then []
  else
    let paragraphs := (splitNewlineRuns text).filter (fun p => decide (jsTrim p ≠ []))
    if paragraphs = [] then []
    else (chunkWindows paragraphsPerChunk.toNat paragraphs).map joinNN

/-- The non-empty, non-whitespace-only paragraphs of a text, in order: the
`text.split(/\n+/).filter(p => p.trim() !== '')` step of the chunker. -/
def scriptParagraphs (text : List Char) : List (List Char) :=
  (splitNewlineRuns text).filter (fun p => decide (jsTrim p ≠ []))

/-- Test whether the second list starts with the first (helper for
`jsIncludes`). -/
def beginsWith : List Char → List Char → Bool
  | [], _ => true
  | _ :: _, [] => false
  | p :: ps, c :: cs => p = c && beginsWith ps cs

/-- JavaScript `s.includes(pat)`: does `pat` occur contiguously in `s`? -/
def jsIncludes : List Char → List Char → Bool
  | [], pat => pat.isEmpty
  | c :: rest, pat => beginsWith pat (c :: rest) || jsIncludes rest pat

/-- The `stabilityType` field of `ModelCapabilities`. -/
inductive StabilityType
  | continuous
  | discrete
deriving DecidableEq

/-- The `ModelCapabilities` interface of `elevenLabsService.ts`. -/
structure ModelCapabilities where
  supportsClarity : Bool
  supportsStyle : Bool
  supportsSpeakerBoost : Bool
  stabilityType : StabilityType
deriving DecidableEq

/-- The `defaults` record inside `getModelCapabilities` (the v2 family). -/
def defaultCapabilities : ModelCapabilities :=
  { supportsClarity := true
    supportsStyle := true
    supportsSpeakerBoost := true
    stabilityType := .continuous }

/-- The classification chain of `getModelCapabilities`: the `"_v1"` check
runs first, then `"turbo"`, then `"_v3"`, and every branch returns, so the
source's early returns are an if/else chain. -/
def getModelCapabilities (modelId : List Char) : ModelCapabilities :=
  if jsIncludes modelId (chars ("_v1")) then
    { defaultCapabilities with supportsStyle := false, supportsSpeakerBoost := false }
  else if jsIncludes modelId (chars ("turbo")) then
    { defaultCapabilities with stabilityType := .discrete }
  else if jsIncludes modelId (chars ("_v3")) then
    { defaultCapabilities with
        supportsClarity := false, supportsStyle := false, supportsSpeakerBoost := false }
  else defaultCapabilities

/-- The caller-supplied `VoiceSettings` object (`types.ts`): `style`,
`use_speaker_boost` and `speed` are optional fields. -/
structure VoiceSettings where
  stability : ℚ
  similarity_boost : ℚ
  style : Option ℚ
  use_speaker_boost : Option Bool
  speed : Option ℚ
deriving DecidableEq

/-- The `settingsToSend` object built by `generateVoiceover`: a field is
`none` exactly when the source leaves the key out of the JSON object. -/
structure SettingsToSend where
  stability : ℚ
  speed : ℚ
  similarity_boost : Option ℚ
  style : Option ℚ
  use_speaker_boost : Option Bool
deriving DecidableEq

/-- The settings-shaping block of `generateVoiceover`: start from
`{ stability, speed: 1.0 }`, then add `similarity_boost` when the model
supports clarity, `style` when supported and supplied, and
`use_speaker_boost` when supported and supplied. -/
def buildSettingsToSend (capabilities : ModelCapabilities) (voiceSettings : VoiceSettings) :
    SettingsToSend :=
  { stability := voiceSettings.stability
    speed := 1
    similarity_boost :=
      if capabilities.supportsClarity then some voiceSettings.similarity_boost else none
    style :=
      if capabilities.supportsStyle ∧ voiceSettings.style ≠ none then voiceSettings.style
      else none
    use_speaker_boost :=
      if capabilities.supportsSpeakerBoost ∧ voiceSettings.use_speaker_boost ≠ none then
        voiceSettings.use_speaker_boost
      else none }

/-- The JSON body assembled by `generateVoiceover`:
`{ text, model_id, voice_settings, ...(previousRequestId && { previous_request_ids: [previousRequestId] }) }`.
The spread contributes the linkage field exactly when `previousRequestId`
is truthy, i.e. present and a non-empty string. -/
structure RequestBody where
  text : List Char
  model_id : List Char
  voice_settings : SettingsToSend
  previous_request_ids : Option (List (List Char))
deriving DecidableEq

/-- Assemble the outgoing synthesis request body as `generateVoiceover`
does. -/
def buildRequestBody (text modelId : List Char) (voiceSettings : VoiceSettings)
    (previousRequestId : Option (List Char)) : RequestBody :=
  { text := text
    model_id := modelId
    voice_settings := buildSettingsToSend (getModelCapabilities modelId) voiceSettings
    previous_request_ids :=
      match previousRequestId with
      | none => none
      | some p => if p = [] then none else some [p] }

/-- The continuity-token extraction of `generateVoiceover`:
`response.headers.get('xi-request-id') || ''` (an absent header is `null`
and becomes the empty string). -/
def extractRequestId (header : Option (List Char)) : List Char :=
  header.getD []

/-- Value of a non-empty digit string. -/
def digitsVal (ds : List Char) : Nat :=
  ds.foldl (fun a c => a * 10 + (c.toNat - 48)) 0

/-- Parse the maximal leading run of decimal digits; `none` when there is
no digit (JavaScript `parseInt` then yields `NaN`). -/
def parseDigits (s : List Char) : Option Nat :=
  match s.takeWhile (fun c => c.isDigit) with
  | [] => none
  | ds => some (digitsVal ds)

/-- JavaScript `parseInt(s, 10)`: skip leading whitespace, accept an
optional sign, then read decimal digits; `none` stands for `NaN`. -/
def jsParseInt (s : List Char) : Option Int :=
  match s.dropWhile (fun c => isJsWhitespace c) with
  | '-' :: rest => (parseDigits rest).map (fun n => -(n : Int))
  | '+' :: rest => (parseDigits rest).map (fun n => (n : Int))
  | t => (parseDigits t).map (fun n => (n : Int))

/-- An HTTP response as the retry loop sees it: a status code and the
optional `Retry-After` header. -/
structure HttpResponse where
  status : Nat
  retryAfterHeader : Option (List Char)
deriving DecidableEq

/-- What one `fetch` attempt produces: a response, or a thrown
network-level failure. -/
inductive FetchOutcome
  | response (r : HttpResponse)
  | networkFailure
deriving DecidableEq

/-- How `fetchWithRetry` ends: it returns a response, rethrows the last
network failure, or throws `Error('Failed to fetch after multiple
retries.')` after the loop exhausts. -/
inductive FetchResult
  | returned (r : HttpResponse)
  | threwNetworkError
  | threwRetriesExhausted
deriving DecidableEq

/-- The 429 wait-time computation:
`retryAfterSeconds > 0 ? retryAfterSeconds * 1000 + jitter : backoff + jitter`
with `retryAfterSeconds = parseInt(headers.get('Retry-After') || '0', 10)`
(`NaN > 0` is false, so an unparsable header falls back to the backoff). -/
def rateLimitWait (backoff jitterValue : ℚ) (retryAfterHeader : Option (List Char)) : ℚ :=
  match jsParseInt (retryAfterHeader.getD (chars ("0"))) with
  | some v => if 0 < v then (v : ℚ) * 1000 + jitterValue else backoff + jitterValue
  | none => backoff + jitterValue

/-- The body of `fetchWithRetry`'s `for (let i = 0; i < retries; i++)`
loop: `remaining` counts the iterations still allowed (`retries - i`), `i`
is the attempt number, and `sleeps` accumulates the wait durations in
order.  On a 429 the loop sleeps and multiplies the backoff by 1.5, even
on the final iteration, and exhaustion throws the generic error; any
non-429 response is returned at once; a network failure is rethrown on
the last attempt (`i === retries - 1`) and otherwise sleeps the plain
backoff. -/
def fetchWithRetryGo (transport : Nat → FetchOutcome) (jitter : Nat → ℚ) :
    Nat → Nat → ℚ → List ℚ → FetchResult × List ℚ
  | 0, _, _, sleeps => (.threwRetriesExhausted, sleeps)
  | remaining + 1, i, backoff, sleeps =>
    match transport i with
    | .response r =>
      if r.status = 429 then
        fetchWithRetryGo transport jitter remaining (i + 1) (backoff * (3 / 2))
          (sleeps ++ [rateLimitWait backoff (jitter i) r.retryAfterHeader])
      else (.returned r, sleeps)
    | .networkFailure =>
      if remaining = 0 then (.threwNetworkError, sleeps)
      else
        fetchWithRetryGo transport jitter remaining (i + 1) (backoff * (3 / 2))
          (sleeps ++ [backoff])

/-- `fetchWithRetry(url, options, retries = 5, backoff = 500)`: run the
loop from attempt 0 with no sleeps recorded yet. -/
def fetchWithRetry (transport : Nat → FetchOutcome) (jitter : Nat → ℚ)
    (retries : Nat) (backoff : ℚ) : FetchResult × List ℚ :=
  fetchWithRetryGo transport jitter retries 0 backoff []

/-- The `for (let i = 0; i < textChunks.length; i++)` loop of
`handleGenerate`, with `previousRequestId` threaded exactly as the source
threads it (initially `undefined`, afterwards always the id returned by
the preceding call). -/
def sequencerLoop (synth : Nat → List Char) (total : Nat) :
    List (List Char) → Nat → Option (List Char) →
      List (Nat × Nat) × List (List Char × Option (List Char))
  | [], _, _ => ([], [])
  | chunk :: rest, i, prev =>
    let next := sequencerLoop synth total rest (i + 1) (some (synth i))
    ((i + 1, total) :: next.1, (chunk, prev) :: next.2)

/-- The fields of a queued batch job that drive the orchestrator's control
flow (`script_content` and `paragraphs_per_chunk` of `BatchJob`). -/
structure BatchJobSpec where
  script_content : List Char
  paragraphs_per_chunk : Int
deriving DecidableEq

/-- The `status` field of a `BatchJob`. -/
inductive JobStatus
  | queued
  | processing
  | completed
  | error
deriving DecidableEq

/-- A job's observable record after the run: its status together with the
`error_message`, `progress` and `final_audio_url` fields. -/
structure JobState where
  status : JobStatus
  error_message : Option (List Char)
  progress : Option (Nat × Nat)
  final_audio_url : Option (List Nat)
deriving DecidableEq

/-- The message of the error thrown when chunking a job's script yields
nothing: `Script file is empty or contains no paragraphs.`. -/
def emptyScriptMessage : List Char :=
  chars ("Script file is empty or contains no paragraphs.")

/-- The inner chunk loop of one job: call the synthesis stub per chunk in
order, collecting the returned blobs, and stop at the first thrown error.
Returns the collected blobs (or the error) together with the list of
chunk indices for which a synthesis call was issued. -/
def runChunks (synthJob : Nat → Except (List Char) (List Nat)) :
    List (List Char) → Nat → Except (List Char) (List (List Nat)) × List Nat
  | [], _ => (.ok [], [])
  | _chunk :: rest, i =>
    match synthJob i with
    | .error m => (.error m, [i])
    | .ok b =>
      let next := runChunks synthJob rest (i + 1)
      (next.1.map (fun bs => b :: bs), i :: next.2)

/-- One iteration of the orchestrator's job loop: chunk the script (an
empty result throws the empty-script error before any synthesis call),
run the chunks, and produce the job's final record — completed with the
combined blob, or error with the message and progress cleared. -/
def processOneJob (synthJob : Nat → Except (List Char) (List Nat)) (job : BatchJobSpec) :
    JobState × List Nat :=
  if splitScriptByParagraphs job.script_content job.paragraphs_per_chunk = [] then
    (⟨.error, some emptyScriptMessage, none, none⟩, [])
  else
    match runChunks synthJob
        (splitScriptByParagraphs job.script_content job.paragraphs_per_chunk) 0 with
    | (.ok blobs, calls) => (⟨.completed, none, none, some blobs.flatten⟩, calls)
    | (.error m, calls) => (⟨.error, some m, none, none⟩, calls)

/-- The `for (const job of batchJobs)` loop: process jobs one at a time in
queue order, recording every synthesis call as a (job index, chunk index)
pair in issue order. -/
def handleStartProcessingGo (synth : Nat → Nat → Except (List Char) (List Nat)) :
    List BatchJobSpec → Nat → List JobState × List (Nat × Nat)
  | [], _ => ([], [])
  | job :: rest, j =>
    let r := processOneJob (synth j) job
    let next := handleStartProcessingGo synth rest (j + 1)
    (r.1 :: next.1, r.2.map (fun i => (j, i)) ++ next.2)

/-- The batch run over a queue of jobs, starting at job index 0. -/
def handleStartProcessing (synth : Nat → Nat → Except (List Char) (List Nat))
    (jobs : List BatchJobSpec) : List JobState × List (Nat × Nat) :=
  handleStartProcessingGo synth jobs 0

/-! Basic facts about the splitting helpers. -/

theorem flatten_consHead (c : Char) (X : List (List Char)) :
    (consHead c X).flatten = c :: X.flatten := by
  cases X <;> simp [consHead]

theorem splitNewlineRunsGo_flatten (s : List Char) :
    ∀ b : Bool, (splitNewlineRunsGo b s).flatten = s.filter (fun d => decide (d ≠ '\n')) := by
  induction s with
  | nil => intro b; simp [splitNewlineRunsGo]
  | cons c rest ih =>
    intro b
    by_cases hc : c = '\n'
    · subst hc
      cases b <;> simp [splitNewlineRunsGo, ih]
    · simp [splitNewlineRunsGo, hc, flatten_consHead, ih, List.filter_cons]

theorem mem_splitNewlineRunsGo (s : List Char) (b : Bool) (p : List Char)
    (hp : p ∈ splitNewlineRunsGo b s) (d : Char) (hd : d ∈ p) :
    d ∈ s ∧ d ≠ '\n' := by
  have hmem : d ∈ (splitNewlineRunsGo b s).flatten := List.mem_flatten.2 ⟨p, hp, hd⟩
  rw [splitNewlineRunsGo_flatten] at hmem
  have := List.mem_filter.1 hmem
  exact ⟨this.1, by simpa using this.2⟩

theorem splitOnNN_no_newline (s : List Char) (h : ∀ c ∈ s, c ≠ '\n') :
    splitOnNN s = [s] := by
  induction s with
  | nil => rfl
  | cons c rest ih =>
    cases rest with
    | nil => rfl
    | cons c2 rest2 =>
      have hc : c ≠ '\n' := h c (by simp)
      have hrec := ih (fun d hd => h d (List.mem_cons_of_mem c hd))
      simp only [splitOnNN]
      rw [if_neg (by simp [hc])]
      rw [hrec]
      rfl

theorem splitOnNN_append (t : List Char) (x : List Char) (hx : ∀ c ∈ x, c ≠ '\n') :
    splitOnNN (x ++ '\n' :: '\n' :: t) = x :: splitOnNN t := by
  induction x with
  | nil => simp [splitOnNN]
  | cons c rest ih =>
    have hc : c ≠ '\n' := hx c (by simp)
    have hrec := ih (fun d hd => hx d (List.mem_cons_of_mem c hd))
    cases rest with
    | nil =>
      simp only [List.nil_append, List.cons_append]
      simp only [splitOnNN]
      simp [hc, consHead]
    | cons c2 rest2 =>
      simp only [List.cons_append] at hrec ⊢
      simp only [splitOnNN]
      rw [if_neg (by simp [hc])]
      rw [hrec]
      rfl

theorem splitOnNN_joinNN (l : List (List Char)) (hne : l ≠ [])
    (hnl : ∀ p ∈ l, ∀ c ∈ p, c ≠ '\n') :
    splitOnNN (joinNN l) = l := by
  induction l with
  | nil => exact absurd rfl hne
  | cons p rest ih =>
    cases rest with
    | nil => exact splitOnNN_no_newline p (hnl p (by simp))
    | cons q rest2 =>
      have h1 : joinNN (p :: q :: rest2) = p ++ '\n' :: '\n' :: joinNN (q :: rest2) := rfl
      rw [h1, splitOnNN_append _ p (hnl p (by simp))]
      rw [ih (by simp) (fun r hr c hc => hnl r (List.mem_cons_of_mem p hr) c hc)]

theorem chunkWindowsGo_flatten (k : Nat) :
    ∀ (fuel : Nat) (l : List α), l.length ≤ fuel → (chunkWindowsGo k fuel l).flatten = l := by
  intro fuel
  induction fuel with
  | zero =>
    intro l hl
    rw [List.length_eq_zero.1 (Nat.le_zero.1 hl)]
    rfl
  | succ fuel ih =>
    intro l hl
    cases l with
    | nil => rfl
    | cons x xs =>
      simp only [chunkWindowsGo, List.flatten_cons, List.cons_append, List.nil_append]
      rw [ih (xs.drop (k - 1)) (by simp only [List.length_drop]; simp at hl; omega)]
      simp [List.take_append_drop]

theorem chunkWindows_flatten (k : Nat) (l : List α) :
    (chunkWindows k l).flatten = l :=
  chunkWindowsGo_flatten k l.length l le_rfl

theorem chunkWindowsGo_ne_nil (k : Nat) :
    ∀ (fuel : Nat) (l : List α) (w : List α), w ∈ chunkWindowsGo k fuel l → w ≠ [] := by
  intro fuel
  induction fuel with
  | zero => intro l w hw; simp [chunkWindowsGo] at hw
  | succ fuel ih =>
    intro l w hw
    cases l with
    | nil => simp [chunkWindowsGo] at hw
    | cons x xs =>
      simp only [chunkWindowsGo, List.mem_cons] at hw
      rcases hw with h | h
      · subst h; simp
      · exact ih _ w h

theorem jsTrim_eq_nil_iff (s : List Char) :
    jsTrim s = [] ↔ ∀ c ∈ s, isJsWhitespace c := by
  unfold jsTrim
  rw [List.reverse_eq_nil_iff, List.dropWhile_eq_nil_iff]
  constructor
  · intro h c hc
    have hdrop : ∀ x ∈ s.dropWhile (fun c => isJsWhitespace c), isJsWhitespace x := by
      intro x hx
      exact h x (by simpa using hx)
    have hsplit := List.takeWhile_append_dropWhile (fun c => isJsWhitespace c) s
    rw [← hsplit] at hc
    rcases List.mem_append.1 hc with h1 | h2
    · exact List.mem_takeWhile_imp h1
    · exact hdrop c h2
  · intro h x hx
    have hsub : x ∈ s := (List.dropWhile_sublist _).subset (by simpa using hx)
    exact h x hsub

theorem scriptParagraphs_of_whitespace (text : List Char)
    (h : jsTrim text = []) : scriptParagraphs text = [] := by
  have hws := (jsTrim_eq_nil_iff text).1 h
  unfold scriptParagraphs
  rw [List.filter_eq_nil_iff]
  intro p hp
  have hall : ∀ c ∈ p, isJsWhitespace c := fun c hc =>
    hws c (mem_splitNewlineRunsGo text false p hp c hc).1
  simp [(jsTrim_eq_nil_iff p).2 hall]

/-- The unfolding of the chunker's body, stated once so the claim proofs
can refer to each stage explicitly. -/
theorem splitScriptByParagraphs_eq (text : List Char) (k : Int) :
    splitScriptByParagraphs text k =
      if jsTrim text = [] ∨ k ≤ 0 then []
      else if scriptParagraphs text = [] then []
      else (chunkWindows k.toNat (scriptParagraphs text)).map joinNN := rfl

/-- C3: for every text and positive paragraphsPerChunk, the chunker is
deterministic (a pure function: two runs on identical inputs agree), and
re-splitting each returned chunk on the blank-line separator and
concatenating reproduces exactly the non-empty, non-whitespace-only
paragraphs of the original text, in order. -/
theorem chunker_deterministic_and_roundtrip (text : List Char) (k : Int) (hk : 0 < k) :
    splitScriptByParagraphs text k = splitScriptByParagraphs text k ∧
    ((splitScriptByParagraphs text k).map splitOnNN).flatten = scriptParagraphs text := by
  refine ⟨rfl, ?_⟩
  rw [splitScriptByParagraphs_eq]
  by_cases hguard : jsTrim text = [] ∨ k ≤ 0
  · rcases hguard with hws | hk0
    · rw [if_pos (Or.inl hws), scriptParagraphs_of_whitespace text hws]
      rfl
    · omega
  · rw [if_neg hguard]
    by_cases hpar : scriptParagraphs text = []
    · rw [if_pos hpar, hpar]
      rfl
    · rw [if_neg hpar, List.map_map]
      have hcongr : ∀ w ∈ chunkWindows k.toNat (scriptParagraphs text),
          (splitOnNN ∘ joinNN) w = w := by
        intro w hw
        have hwne : w ≠ [] := chunkWindowsGo_ne_nil k.toNat _ _ w hw
        have hnl : ∀ p ∈ w, ∀ c ∈ p, c ≠ '\n' := by
          intro p hp c hc
          have hpflat : p ∈ (chunkWindows k.toNat (scriptParagraphs text)).flatten :=
            List.mem_flatten.2 ⟨w, hw, hp⟩
          rw [chunkWindows_flatten] at hpflat
          have hpruns : p ∈ splitNewlineRuns text := (List.mem_filter.1 hpflat).1
          exact (mem_splitNewlineRunsGo text false p hpruns c hc).2
        exact splitOnNN_joinNN w hwne hnl
      rw [List.map_congr_left hcongr, List.map_id']
      exact chunkWindows_flatten k.toNat (scriptParagraphs text)

/-- Witness for C3 at a concrete script and window size. -/
theorem chunker_deterministic_and_roundtrip_witness :
    0 < (2 : Int) ∧
    (splitScriptByParagraphs (chars ("Hello\nWorld\n\nBye")) 2 =
        splitScriptByParagraphs (chars ("Hello\nWorld\n\nBye")) 2 ∧
      ((splitScriptByParagraphs (chars ("Hello\nWorld\n\nBye")) 2).map splitOnNN).flatten =
        scriptParagraphs (chars ("Hello\nWorld\n\nBye"))) :=
  ⟨by decide, chunker_deterministic_and_roundtrip (chars ("Hello\nWorld\n\nBye")) 2 (by decide)⟩

/-- C4: the chunker returns an empty sequence (without raising) whenever
the text is empty or whitespace-only or the paragraph count is not
positive, and grouping follows fixed windows with a possibly shorter
final window, as in the spec's concrete examples. -/
theorem chunker_guards_and_windows :
    (∀ (text : List Char) (k : Int), jsTrim text = [] ∨ k ≤ 0 →
        splitScriptByParagraphs text k = []) ∧
    splitScriptByParagraphs (chars ("")) 3 = [] ∧
    splitScriptByParagraphs (chars ("A\n\nB")) 0 = [] ∧
    splitScriptByParagraphs (chars ("A\n\n\nB\n\nC")) 2 = [chars ("A\n\nB"), chars ("C")] := by
  refine ⟨?_, by decide, by decide, by decide⟩
  intro text k h
  rw [splitScriptByParagraphs_eq, if_pos h]

/-- Witness for C4's guarded clause at a whitespace-only script. -/
theorem chunker_guards_and_windows_witness :
    (jsTrim (chars ("  ")) = [] ∨ (3 : Int) ≤ 0) ∧
    splitScriptByParagraphs (chars ("  ")) 3 = [] :=
  ⟨Or.inl (by decide), chunker_guards_and_windows.1 (chars ("  ")) 3 (Or.inl (by decide))⟩

/-- C2: the outgoing settings obey the capability classification: a model
id containing "_v1" never sends style or use_speaker_boost; a model id
containing "_v3" but neither "_v1" nor "turbo" sends none of the caller's
fields except stability; and the outgoing speed is always 1.0. -/
theorem capability_filtering (modelId : List Char) (voiceSettings : VoiceSettings) :
    (jsIncludes modelId (chars ("_v1")) = true →
      (buildSettingsToSend (getModelCapabilities modelId) voiceSettings).style = none ∧
      (buildSettingsToSend (getModelCapabilities modelId) voiceSettings).use_speaker_boost
        = none) ∧
    (jsIncludes modelId (chars ("_v3")) = true →
      jsIncludes modelId (chars ("_v1")) = false →
      jsIncludes modelId (chars ("turbo")) = false →
      (buildSettingsToSend (getModelCapabilities modelId) voiceSettings).similarity_boost
          = none ∧
      (buildSettingsToSend (getModelCapabilities modelId) voiceSettings).style = none ∧
      (buildSettingsToSend (getModelCapabilities modelId) voiceSettings).use_speaker_boost
        = none) ∧
    (buildSettingsToSend (getModelCapabilities modelId) voiceSettings).speed = 1 := by
  refine ⟨?_, ?_, rfl⟩
  · intro h1
    simp [buildSettingsToSend, getModelCapabilities, h1]
  · intro h3 h1 ht
    simp [buildSettingsToSend, getModelCapabilities, h1, ht, h3]

/-- Witness for C2 at a v1 model id whose caller settings set every
optional field. -/
theorem capability_filtering_witness :
    jsIncludes (chars ("eleven_monolingual_v1")) (chars ("_v1")) = true ∧
    ((buildSettingsToSend (getModelCapabilities (chars ("eleven_monolingual_v1")))
        ⟨3/4, 3/4, some (1/2), some true, some (2 : ℚ)⟩).style = none ∧
      (buildSettingsToSend (getModelCapabilities (chars ("eleven_monolingual_v1")))
        ⟨3/4, 3/4, some (1/2), some true, some (2 : ℚ)⟩).use_speaker_boost = none) :=
  ⟨by decide,
    (capability_filtering (chars ("eleven_monolingual_v1"))
      ⟨3/4, 3/4, some (1/2), some true, some (2 : ℚ)⟩).1 (by decide)⟩

/-- C10: a response without the continuity-token header yields the empty
string as the token; a request built from that empty token is identical to
one built from no token, and the linkage field is present exactly when the
supplied previous token is a non-empty string (and then carries it as a
one-element array). -/
theorem continuity_linkage_field (text modelId : List Char)
    (voiceSettings : VoiceSettings) :
    extractRequestId none = [] ∧
    buildRequestBody text modelId voiceSettings (some []) =
      buildRequestBody text modelId voiceSettings none ∧
    (∀ previousRequestId : Option (List Char),
      (buildRequestBody text modelId voiceSettings previousRequestId).previous_request_ids
          = none ↔
        previousRequestId = none ∨ previousRequestId = some []) ∧
    (∀ p : List Char, p ≠ [] →
      (buildRequestBody text modelId voiceSettings (some p)).previous_request_ids
        = some [p]) := by
  refine ⟨rfl, rfl, ?_, ?_⟩
  · intro prev
    cases prev with
    | none => simp [buildRequestBody]
    | some p =>
      by_cases hp : p = [] <;> simp [buildRequestBody, hp]
  · intro p hp
    simp [buildRequestBody, hp]

/-- Witness for C10 with a concrete non-empty previous token. -/
theorem continuity_linkage_field_witness :
    chars ("req-1") ≠ [] ∧
    (buildRequestBody (chars ("Hi")) (chars ("eleven_multilingual_v2"))
        ⟨3/4, 3/4, none, none, none⟩ (some (chars ("req-1")))).previous_request_ids
      = some [chars ("req-1")] :=
  ⟨by decide,
    (continuity_linkage_field (chars ("Hi")) (chars ("eleven_multilingual_v2"))
      ⟨3/4, 3/4, none, none, none⟩).2.2.2 (chars ("req-1")) (by decide)⟩

theorem rateLimitWait_none (backoff jitterValue : ℚ) :
    rateLimitWait backoff jitterValue none = backoff + jitterValue := by
  have hparse : jsParseInt (chars ("0")) = some 0 := by decide
  simp [rateLimitWait, Option.getD, hparse]

/-- C1 counterexample: when every attempt receives HTTP 429, the function
does not surface the last rate-limit response as a returned value — the
loop exhausts and throws the generic retries-exhausted error instead. -/
theorem retry_exhaustion_counterexample :
    (fetchWithRetry (fun _ => FetchOutcome.response ⟨429, none⟩) (fun _ => 0) 5 500).1
        = FetchResult.threwRetriesExhausted ∧
    ¬ ∃ r : HttpResponse,
      (fetchWithRetry (fun _ => FetchOutcome.response ⟨429, none⟩) (fun _ => 0) 5 500).1
        = FetchResult.returned r := by
  have h : (fetchWithRetry (fun _ => FetchOutcome.response ⟨429, none⟩) (fun _ => 0) 5 500).1
      = FetchResult.threwRetriesExhausted := by decide
  refine ⟨h, ?_⟩
  rintro ⟨r, hr⟩
  rw [h] at hr
  exact FetchResult.noConfusion hr

/-- C1 amended: if every one of the 5 attempts receives HTTP 429, the
function sleeps five times and then throws the generic
`Failed to fetch after multiple retries.` error; the last 429 response is
not returned. -/
theorem retry_exhaustion_throws (transport : Nat → FetchOutcome) (jitter : Nat → ℚ)
    (h : ∀ i < 5, ∃ hdr, transport i = FetchOutcome.response ⟨429, hdr⟩) :
    (fetchWithRetry transport jitter 5 500).1 = FetchResult.threwRetriesExhausted ∧
    (fetchWithRetry transport jitter 5 500).2.length = 5 := by
  obtain ⟨hdr0, h0⟩ := h 0 (by omega)
  obtain ⟨hdr1, h1⟩ := h 1 (by omega)
  obtain ⟨hdr2, h2⟩ := h 2 (by omega)
  obtain ⟨hdr3, h3⟩ := h 3 (by omega)
  obtain ⟨hdr4, h4⟩ := h 4 (by omega)
  constructor <;>
    simp [fetchWithRetry, fetchWithRetryGo, h0, h1, h2, h3, h4]

/-- Witness for the amended C1 at a transport that always rate-limits. -/
theorem retry_exhaustion_throws_witness :
    (∀ i < 5, ∃ hdr, (fun _ => FetchOutcome.response ⟨429, none⟩ : Nat → FetchOutcome) i
        = FetchOutcome.response ⟨429, hdr⟩) ∧
    ((fetchWithRetry (fun _ => FetchOutcome.response ⟨429, none⟩) (fun _ => (0 : ℚ)) 5 500).1
        = FetchResult.threwRetriesExhausted ∧
      (fetchWithRetry (fun _ => FetchOutcome.response ⟨429, none⟩)
          (fun _ => (0 : ℚ)) 5 500).2.length = 5) :=
  ⟨fun _ _ => ⟨none, rfl⟩,
    retry_exhaustion_throws (fun _ => FetchOutcome.response ⟨429, none⟩)
      (fun _ => (0 : ℚ)) (fun _ _ => ⟨none, rfl⟩)⟩

/-- C5: with a transport that yields 429 twice (without a Retry-After
header) and then 200, the function returns the 200 response, sleeps
exactly twice, and — ignoring jitter — the waits follow the backoff
schedule 500, then 500 × 1.5, a non-decreasing sequence. -/
theorem rate_limit_backoff_schedule (transport : Nat → FetchOutcome) (jitter : Nat → ℚ)
    (h0 : transport 0 = FetchOutcome.response ⟨429, none⟩)
    (h1 : transport 1 = FetchOutcome.response ⟨429, none⟩)
    (h2 : transport 2 = FetchOutcome.response ⟨200, none⟩) :
    fetchWithRetry transport jitter 5 500 =
      (FetchResult.returned ⟨200, none⟩, [500 + jitter 0, 500 * (3 / 2) + jitter 1]) ∧
    (fetchWithRetry transport jitter 5 500).2.length = 2 ∧
    (500 : ℚ) ≤ 500 * (3 / 2) := by
  have hrun : fetchWithRetry transport jitter 5 500 =
      (FetchResult.returned ⟨200, none⟩, [500 + jitter 0, 500 * (3 / 2) + jitter 1]) := by
    simp [fetchWithRetry, fetchWithRetryGo, h0, h1, h2, rateLimitWait_none]
  refine ⟨hrun, ?_, by norm_num⟩
  rw [hrun]
  rfl

/-- Witness for C5 at a concrete two-429s-then-200 transport stub. -/
theorem rate_limit_backoff_schedule_witness :
    fetchWithRetry
        (fun i => match i with
          | 0 => FetchOutcome.response ⟨429, none⟩
          | 1 => FetchOutcome.response ⟨429, none⟩
          | _ => FetchOutcome.response ⟨200, none⟩)
        (fun _ => (0 : ℚ)) 5 500 =
      (FetchResult.returned ⟨200, none⟩, [500 + 0, 500 * (3 / 2) + 0]) ∧
    (fetchWithRetry
        (fun i => match i with
          | 0 => FetchOutcome.response ⟨429, none⟩
          | 1 => FetchOutcome.response ⟨429, none⟩
          | _ => FetchOutcome.response ⟨200, none⟩)
        (fun _ => (0 : ℚ)) 5 500).2.length = 2 ∧
    (500 : ℚ) ≤ 500 * (3 / 2) :=
  rate_limit_backoff_schedule
    (fun i => match i with
      | 0 => FetchOutcome.response ⟨429, none⟩
      | 1 => FetchOutcome.response ⟨429, none⟩
      | _ => FetchOutcome.response ⟨200, none⟩)
    (fun _ => (0 : ℚ)) rfl rfl rfl

/-- C6: any attempt that receives a non-429 HTTP response — success or an
application error alike — makes the loop return that response at once,
with no further retries and no sleep recorded for it, from any loop
state with budget left. -/
theorem non_rate_limit_returned_immediately (transport : Nat → FetchOutcome)
    (jitter : Nat → ℚ) (remaining i : Nat) (backoff : ℚ) (sleeps : List ℚ)
    (r : HttpResponse) (hr : transport i = FetchOutcome.response r)
    (hs : r.status ≠ 429) :
    fetchWithRetryGo transport jitter (remaining + 1) i backoff sleeps
      = (FetchResult.returned r, sleeps) := by
  simp [fetchWithRetryGo, hr, hs]

/-- Witness for C6 at a 503 application error on the first attempt. -/
theorem non_rate_limit_returned_immediately_witness :
    (503 : Nat) ≠ 429 ∧
    fetchWithRetryGo (fun _ => FetchOutcome.response ⟨503, none⟩) (fun _ => (0 : ℚ))
        5 0 500 [] = (FetchResult.returned ⟨503, none⟩, []) :=
  ⟨by decide,
    non_rate_limit_returned_immediately (fun _ => FetchOutcome.response ⟨503, none⟩)
      (fun _ => (0 : ℚ)) 4 0 500 [] ⟨503, none⟩ rfl (by decide)⟩

theorem sequencerLoop_lengths (synth : Nat → List Char) (total : Nat) :
    ∀ (chunks : List (List Char)) (i : Nat) (prev : Option (List Char)),
      (sequencerLoop synth total chunks i prev).1.length = chunks.length ∧
      (sequencerLoop synth total chunks i prev).2.length = chunks.length := by
  intro chunks
  induction chunks with
  | nil => intro i prev; exact ⟨rfl, rfl⟩
  | cons c rest ih =>
    intro i prev
    have h := ih (i + 1) (some (synth i))
    simp [sequencerLoop, h.1, h.2]

theorem sequencerLoop_events (synth : Nat → List Char) (total : Nat) :
    ∀ (chunks : List (List Char)) (i : Nat) (prev : Option (List Char)) (k : Nat),
      k < chunks.length →
      (sequencerLoop synth total chunks i prev).1.getD k (0, 0) = (i + k + 1, total) := by
  intro chunks
  induction chunks with
  | nil => intro i prev k hk; simp at hk
  | cons c rest ih =>
    intro i prev k hk
    cases k with
    | zero => rfl
    | succ k =>
      have hk2 : k < rest.length := by simpa using hk
      have hres := ih (i + 1) (some (synth i)) k hk2
      show (sequencerLoop synth total rest (i + 1) (some (synth i))).1.getD k (0, 0) = _
      rw [hres, show i + (k + 1) + 1 = i + 1 + k + 1 from by omega]

theorem sequencerLoop_calls (synth : Nat → List Char) (total : Nat) :
    ∀ (chunks : List (List Char)) (i : Nat) (prev : Option (List Char)) (k : Nat),
      k < chunks.length →
      (sequencerLoop synth total chunks i prev).2.getD k ([], none)
        = (chunks.getD k [], if k = 0 then prev else some (synth (i + k - 1))) := by
  intro chunks
  induction chunks with
  | nil => intro i prev k hk; simp at hk
  | cons c rest ih =>
    intro i prev k hk
    cases k with
    | zero => rfl
    | succ k =>
      have hk2 : k < rest.length := by simpa using hk
      have hres := ih (i + 1) (some (synth i)) k hk2
      show (sequencerLoop synth total rest (i + 1) (some (synth i))).2.getD k ([], none) = _
      rw [hres]
      by_cases hk0 : k = 0
      · subst hk0
        simp
      · simp only [List.getD_cons_succ, if_neg hk0, if_neg (Nat.succ_ne_zero k)]
        rw [show i + 1 + k - 1 = i + (k + 1) - 1 from by omega]

/-- C7: in a sequencer run over `n ≥ 2` chunks whose stub returns a
distinct non-empty token per call, synthesis requests are issued in chunk
order, the first request carries no continuity token, request `k + 1`
carries exactly the token returned by request `k`, and the progress event
emitted before chunk `k + 1` is `(k + 1, n)`. -/
theorem sequencer_continuity_threading (synth : Nat → List Char)
    (chunks : List (List Char)) (n : Nat) (hn : chunks.length = n) (h2 : 2 ≤ n)
    (hne : ∀ i, synth i ≠ []) (hinj : ∀ a b, synth a = synth b → a = b) :
    (sequencerLoop synth n chunks 0 none).2.length = n ∧
    (sequencerLoop synth n chunks 0 none).1.length = n ∧
    (∀ k, k < n → ((sequencerLoop synth n chunks 0 none).2.getD k ([], none)).1
        = chunks.getD k []) ∧
    ((sequencerLoop synth n chunks 0 none).2.getD 0 ([], none)).2 = none ∧
    (∀ k, 1 ≤ k → k < n →
      ((sequencerLoop synth n chunks 0 none).2.getD k ([], none)).2
        = some (synth (k - 1))) ∧
    (∀ k, k < n →
      (sequencerLoop synth n chunks 0 none).1.getD k (0, 0) = (k + 1, n)) := by
  subst hn
  refine ⟨(sequencerLoop_lengths synth _ chunks 0 none).2,
    (sequencerLoop_lengths synth _ chunks 0 none).1, ?_, ?_, ?_, ?_⟩
  · intro k hk
    rw [sequencerLoop_calls synth _ chunks 0 none k hk]
  · rw [sequencerLoop_calls synth _ chunks 0 none 0 (by omega)]
    rfl
  · intro k h1k hk
    rw [sequencerLoop_calls synth _ chunks 0 none k hk]
    simp [show k ≠ 0 from by omega]
  · intro k hk
    rw [sequencerLoop_events synth _ chunks 0 none k hk]
    simp

/-- Witness for C7 over three chunks with a stub returning distinct
non-empty tokens: request 2 carries request 1's token and request 3
carries request 2's. -/
theorem sequencer_continuity_threading_witness :
    ((sequencerLoop (fun i => List.replicate (i + 1) 't') 3
        [chars ("A"), chars ("B"), chars ("C")] 0 none).2.getD 1 ([], none)).2
      = some (List.replicate 1 't') ∧
    ((sequencerLoop (fun i => List.replicate (i + 1) 't') 3
        [chars ("A"), chars ("B"), chars ("C")] 0 none).2.getD 2 ([], none)).2
      = some (List.replicate 2 't') :=
  ⟨(sequencer_continuity_threading (fun i => List.replicate (i + 1) 't')
      [chars ("A"), chars ("B"), chars ("C")] 3 rfl (by omega)
      (fun i => by simp)
      (fun a b hab => by
        have hlen := congrArg List.length hab
        simp at hlen
        omega)).2.2.2.2.1 1 (by omega) (by omega),
    (sequencer_continuity_threading (fun i => List.replicate (i + 1) 't')
      [chars ("A"), chars ("B"), chars ("C")] 3 rfl (by omega)
      (fun i => by simp)
      (fun a b hab => by
        have hlen := congrArg List.length hab
        simp at hlen
        omega)).2.2.2.2.1 2 (by omega) (by omega)⟩

theorem handleStartProcessingGo_states (synth : Nat → Nat → Except (List Char) (List Nat)) :
    ∀ (jobs : List BatchJobSpec) (j0 k : Nat), k < jobs.length →
      (handleStartProcessingGo synth jobs j0).1.getD k ⟨.queued, none, none, none⟩
        = (processOneJob (synth (j0 + k)) (jobs.getD k ⟨[], 0⟩)).1 := by
  intro jobs
  induction jobs with
  | nil => intro j0 k hk; simp at hk
  | cons job rest ih =>
    intro j0 k hk
    cases k with
    | zero => rfl
    | succ k =>
      have hk2 : k < rest.length := by simpa using hk
      have hres := ih (j0 + 1) k hk2
      show (handleStartProcessingGo synth rest (j0 + 1)).1.getD k ⟨.queued, none, none, none⟩
        = _
      rw [hres, show j0 + (k + 1) = j0 + 1 + k from by omega]
      rfl

theorem handleStartProcessingGo_calls (synth : Nat → Nat → Except (List Char) (List Nat)) :
    ∀ (jobs : List BatchJobSpec) (j0 a b : Nat),
      (a, b) ∈ (handleStartProcessingGo synth jobs j0).2 →
      ∃ k, k < jobs.length ∧ a = j0 + k ∧
        b ∈ (processOneJob (synth a) (jobs.getD k ⟨[], 0⟩)).2 := by
  intro jobs
  induction jobs with
  | nil => intro j0 a b hmem; simp [handleStartProcessingGo] at hmem
  | cons job rest ih =>
    intro j0 a b hmem
    have hsplit : (a, b) ∈ (processOneJob (synth j0) job).2.map (fun i => (j0, i)) ∨
        (a, b) ∈ (handleStartProcessingGo synth rest (j0 + 1)).2 :=
      List.mem_append.1 hmem
    rcases hsplit with h | h
    · obtain ⟨i, hi, hpair⟩ := List.mem_map.1 h
      obtain ⟨ha, hb⟩ := Prod.mk.injEq .. ▸ hpair
      refine ⟨0, by simp, by omega, ?_⟩
      subst ha
      simpa [← hb] using hi
    · obtain ⟨k, hk, ha, hb⟩ := ih (j0 + 1) a b h
      exact ⟨k + 1, by simpa using Nat.succ_lt_succ hk, by omega, by simpa using hb⟩

/-- C8 counterexample: in a 3-job batch where job 2's synthesis raises
after its second chunk, job 2's final record is the bare error state —
the failure message, cleared progress and no artifact reference — so the
partial per-chunk results it produced before failing are discarded, not
retained as the claim states. -/
theorem batch_error_record_counterexample :
    (handleStartProcessing
        (fun j i => if j = 1 ∧ i = 2 then Except.error (chars ("boom"))
          else Except.ok [10 * j + i])
        [⟨chars ("A\nB\nC"), 1⟩, ⟨chars ("A\nB\nC"), 1⟩, ⟨chars ("A\nB\nC"), 1⟩]).1.getD 1
        ⟨.queued, none, none, none⟩
      = ⟨.error, some (chars ("boom")), none, none⟩ ∧
    ((handleStartProcessing
        (fun j i => if j = 1 ∧ i = 2 then Except.error (chars ("boom"))
          else Except.ok [10 * j + i])
        [⟨chars ("A\nB\nC"), 1⟩, ⟨chars ("A\nB\nC"), 1⟩, ⟨chars ("A\nB\nC"), 1⟩]).1.getD 1
        ⟨.queued, none, none, none⟩).final_audio_url = none := by
  constructor <;> decide

/-- C8 amended: jobs are processed one at a time in queue order; in a
3-job batch where job 2's synthesis raises after its second chunk, jobs 1
and 3 reach completed with their combined artifacts and job 2 reaches
error carrying the failure's message with progress cleared, while the
per-chunk blobs job 2 produced before failing are discarded (its record
holds no artifact); processing then continued with job 3. -/
theorem batch_failure_isolation
    (synth : Nat → Nat → Except (List Char) (List Nat))
    (b00 b01 b02 b10 b11 b20 b21 b22 : List Nat) (m : List Char)
    (h00 : synth 0 0 = .ok b00) (h01 : synth 0 1 = .ok b01) (h02 : synth 0 2 = .ok b02)
    (h10 : synth 1 0 = .ok b10) (h11 : synth 1 1 = .ok b11) (h12 : synth 1 2 = .error m)
    (h20 : synth 2 0 = .ok b20) (h21 : synth 2 1 = .ok b21) (h22 : synth 2 2 = .ok b22) :
    handleStartProcessing synth
        [⟨chars ("A\nB\nC"), 1⟩, ⟨chars ("A\nB\nC"), 1⟩, ⟨chars ("A\nB\nC"), 1⟩]
      = ([⟨.completed, none, none, some (b00 ++ b01 ++ b02)⟩,
          ⟨.error, some m, none, none⟩,
          ⟨.completed, none, none, some (b20 ++ b21 ++ b22)⟩],
         [(0, 0), (0, 1), (0, 2), (1, 0), (1, 1), (1, 2), (2, 0), (2, 1), (2, 2)]) := by
  have hchunks : splitScriptByParagraphs (chars ("A\nB\nC")) 1
      = [chars ("A"), chars ("B"), chars ("C")] := by decide
  simp [handleStartProcessing, handleStartProcessingGo, processOneJob, runChunks, hchunks,
    Except.map, h00, h01, h02, h10, h11, h12, h20, h21, h22]

/-- Witness for the amended C8 at a concrete stub where job 2's third
chunk raises. -/
theorem batch_failure_isolation_witness :
    handleStartProcessing
        (fun j i => if j = 1 ∧ i = 2 then Except.error (chars ("kaput"))
          else Except.ok [100 * j + i])
        [⟨chars ("A\nB\nC"), 1⟩, ⟨chars ("A\nB\nC"), 1⟩, ⟨chars ("A\nB\nC"), 1⟩]
      = ([⟨.completed, none, none, some ([0] ++ [1] ++ [2])⟩,
          ⟨.error, some (chars ("kaput")), none, none⟩,
          ⟨.completed, none, none, some ([200] ++ [201] ++ [202])⟩],
         [(0, 0), (0, 1), (0, 2), (1, 0), (1, 1), (1, 2), (2, 0), (2, 1), (2, 2)]) :=
  batch_failure_isolation
    (fun j i => if j = 1 ∧ i = 2 then Except.error (chars ("kaput"))
      else Except.ok [100 * j + i])
    [0] [1] [2] [100] [101] [200] [201] [202] (chars ("kaput"))
    rfl rfl rfl rfl rfl rfl rfl rfl rfl

/-- C9: a batch job whose script content is empty or all-whitespace ends
in the error state with the empty-input message, and no synthesis call is
ever issued for that job. -/
theorem empty_script_job_fails_without_synthesis
    (synth : Nat → Nat → Except (List Char) (List Nat)) (jobs : List BatchJobSpec)
    (j : Nat) (hj : j < jobs.length)
    (hws : jsTrim (jobs.getD j ⟨[], 0⟩).script_content = []) :
    (handleStartProcessing synth jobs).1.getD j ⟨.queued, none, none, none⟩
      = ⟨.error, some emptyScriptMessage, none, none⟩ ∧
    ∀ i, (j, i) ∉ (handleStartProcessing synth jobs).2 := by
  have hchunks : splitScriptByParagraphs (jobs.getD j ⟨[], 0⟩).script_content
      (jobs.getD j ⟨[], 0⟩).paragraphs_per_chunk = [] := by
    rw [splitScriptByParagraphs_eq, if_pos (Or.inl hws)]
  have hproc : ∀ sj, processOneJob sj (jobs.getD j ⟨[], 0⟩)
      = (⟨.error, some emptyScriptMessage, none, none⟩, []) := by
    intro sj
    unfold processOneJob
    rw [if_pos hchunks]
  constructor
  · show (handleStartProcessingGo synth jobs 0).1.getD j ⟨.queued, none, none, none⟩ = _
    rw [handleStartProcessingGo_states synth jobs 0 j hj, Nat.zero_add, hproc]
  · intro i hmem
    obtain ⟨k, hk, ha, hb⟩ := handleStartProcessingGo_calls synth jobs 0 j i hmem
    have hkj : k = j := by omega
    subst hkj
    rw [hproc] at hb
    simp at hb

/-- Witness for C9 at a single whitespace-only job. -/
theorem empty_script_job_fails_without_synthesis_witness :
    (handleStartProcessing (fun _ _ => Except.ok ([] : List Nat))
        [⟨chars ("   "), 2⟩]).1.getD 0 ⟨.queued, none, none, none⟩
      = ⟨.error, some emptyScriptMessage, none, none⟩ ∧
    (0, 0) ∉ (handleStartProcessing (fun _ _ => Except.ok ([] : List Nat))
        [⟨chars ("   "), 2⟩]).2 :=
  ⟨(empty_script_job_fails_without_synthesis (fun _ _ => Except.ok ([] : List Nat))
      [⟨chars ("   "), 2⟩] 0 (by decide) (by decide)).1,
    (empty_script_job_fails_without_synthesis (fun _ _ => Except.ok ([] : List Nat))
      [⟨chars ("   "), 2⟩] 0 (by decide) (by decide)).2 0⟩

end VoPipeline
